import Mathlib

/-!
Verification development for the golms repository: a shallow embedding of the
backend lifecycle supervisor (pkg/server/manager.go) and the chat session
driver (pkg/client/mlx_lm.go), with theorems settling the specification
claims about them.

External effects (OS process listings, the filesystem, the HTTP transport and
the interactive input source) are modelled as explicit oracle data passed to
the embedded functions; every function mirrors the branch structure of the Go
source it embeds.
-/

namespace Golms

/-! ## String helpers

Embeddings of the Go standard-library string operations used by the sources.
`trimGo` models `strings.TrimSpace` (restricted to ASCII whitespace, the only
whitespace the claims exercise); `containsGo` models `strings.Contains` for a
non-empty pattern. -/

def isSpaceGo (c : Char) : Bool :=
  c = ' ' || c = '\t' || c = '\n' || c = '\r'

def trimGo (s : String) : String :=
  String.mk (((s.data.dropWhile isSpaceGo).reverse.dropWhile isSpaceGo).reverse)

def listStartsWith : List Char → List Char → Bool
  | _, [] => true
  | [], _ :: _ => false
  | c :: cs, d :: ds => c = d && listStartsWith cs ds

def listContains : List Char → List Char → Bool
  | [], pat => pat.isEmpty
  | c :: rest, pat => listStartsWith (c :: rest) pat || listContains rest pat

def containsGo (s pat : String) : Bool :=
  listContains s.data pat.data

def toLowerGo (s : String) : String :=
  String.map Char.toLower s

/-! ## Chat data model (src/pkg/client, type declarations)

`float64` fields are modelled as `GoFloat`: NaN, the two infinities, and
finite values as `ℚ` (the embedded code only compares and copies these
values, and on those operations the model agrees with IEEE-754 `float64`
for the parsed literals involved, including the all-false comparisons on
NaN); `[]interface{}` payloads are never inspected by the program and are
modelled as `List Unit`. -/

inductive GoFloat where
  | nan
  | negInf
  | posInf
  | finite (q : ℚ)
deriving DecidableEq

/-- IEEE-754 less-than on the embedded `float64` values: every comparison
involving NaN is false; negative infinity is below every non-NaN value but
itself; positive infinity is above every non-NaN value but itself. -/
def GoFloat.lt : GoFloat → GoFloat → Bool
  | .nan, _ => false
  | _, .nan => false
  | .negInf, .negInf => false
  | .negInf, _ => true
  | _, .negInf => false
  | .posInf, _ => false
  | _, .posInf => true
  | .finite a, .finite b => decide (a < b)

structure Message where
  role : String
  content : String
  toolCalls : Option (List Unit)
deriving DecidableEq

structure ChatOptions where
  temperature : GoFloat
  maxTokens : ℤ
  stream : Bool
deriving DecidableEq

structure ChatRequest where
  messages : List Message
  temperature : GoFloat
  maxTokens : ℤ
  stream : Bool
deriving DecidableEq

structure LogProbs where
  tokenLogProbs : List GoFloat
  topLogProbs : List Unit
  tokens : List ℤ
deriving DecidableEq

structure Choice where
  index : ℤ
  finishReason : String
  logprobs : LogProbs
  message : Message
deriving DecidableEq

structure Usage where
  promptTokens : ℤ
  completionTokens : ℤ
  totalTokens : ℤ
deriving DecidableEq

structure ChatResponse where
  id : String
  systemFingerprint : String
  object : String
  model : String
  created : ℤ
  choices : List Choice
  usage : Usage
deriving DecidableEq

/-! ## Chat transport oracle

One chat iteration consumes one `TurnInput`: the line read from the input
source (`none` models a read error), the outcome of the HTTP POST to
`/v1/chat/completions`, and the JSON decoding of a 200-response body. -/

inductive HttpOutcome where
  | sendErr (msg : String)
  | response (status : Nat) (body : String)
deriving DecidableEq

structure TurnInput where
  line : Option String
  http : HttpOutcome
  decode : String → Option ChatResponse

inductive ChatError where
  | readInput (msg : String)
  | transport (msg : String)
  | apiError (status : Nat) (body : String)
  | decodeFailure (body : String)
  | emptyChoices
deriving DecidableEq

/-- Embeds `MlxLMClient.sendChatReq` (src/pkg/client/mlx_lm.go:142-183).
The HTTP exchange is the `http` oracle; JSON decoding of the body is the
`decode` oracle. A non-200 status yields the `API error (status %d): %s`
error carrying the status and body, before any decoding; on success the
first choice's message is appended to the request's message list.
`emptyChoices` models the Go index-out-of-range panic on `Choices[0]` when
the decoded response has an empty choice list. -/
def sendChatReq (req : ChatRequest) (http : HttpOutcome)
    (decode : String → Option ChatResponse) :
    Except ChatError (ChatResponse × ChatRequest) :=
  match http with
  | .sendErr msg => .error (.transport msg)
  | .response status body =>
    if status ≠ 200 then
      .error (.apiError status body)
    else
      match decode body with
      | none => .error (.decodeFailure body)
      | some chatResp =>
        match chatResp.choices with
        | [] => .error .emptyChoices
        | c :: _ =>
          .ok (chatResp, { req with messages := req.messages ++ [c.message] })

/-- The user `Message` built by `MlxLMClient.addUserMessage`
(src/pkg/client/mlx_lm.go:129-134): role `user`, trimmed input as content,
nil tool calls. -/
def userMessageOf (input : String) : Message :=
  { role := "user", content := input, toolCalls := none }

/-- Result of running the `StartChat` loop against a finite list of turn
inputs: `exited` is the successful return on `/exit`; `failed` is the
error return (carrying the transcript at that point); `pending` means the
supplied inputs were exhausted with the loop still running. -/
inductive ChatLoopResult where
  | exited (transcript : List Message)
  | failed (e : ChatError) (transcript : List Message)
  | pending (transcript : List Message)
deriving DecidableEq

/-- Embeds the infinite loop of `MlxLMClient.StartChat`
(src/pkg/client/mlx_lm.go:41-61) driven by a finite oracle list. Each
iteration: `addUserMessage` reads a line (read error aborts with an error;
a trimmed `/exit` returns `ErrExitRequested`, which `StartChat` converts to
a nil return; otherwise the user message is appended), then `sendChatReq`
is issued; its error aborts the loop, its success already appended the
assistant message. -/
def chatLoop : ChatRequest → List TurnInput → ChatLoopResult
  | req, [] => .pending req.messages
  | req, ti :: rest =>
    match ti.line with
    | none => .failed (.readInput "failed to read user input") req.messages
    | some raw =>
      let input := trimGo raw
      if input = "/exit" then
        .exited req.messages
      else
        let req1 := { req with messages := req.messages ++ [userMessageOf input] }
        match sendChatReq req1 ti.http ti.decode with
        | .error e => .failed e req1.messages
        | .ok (_, req2) => chatLoop req2 rest

/-- Embeds `MlxLMClient.StartChat`'s construction of the initial request
(src/pkg/client/mlx_lm.go:32-38): empty message list, parameters taken from
the session's chat options. -/
def startChat (opts : ChatOptions) (inputs : List TurnInput) : ChatLoopResult :=
  chatLoop
    { messages := [], temperature := opts.temperature,
      maxTokens := opts.maxTokens, stream := opts.stream } inputs

/-! ## Successful turns -/

/-- The pair (user message, assistant message) a turn input would append when
the whole iteration succeeds: a line was read, it is not `/exit`, the HTTP
response had status 200, the body decoded, and the choice list is non-empty.
`none` when any of these fails. -/
def turnMsgs (ti : TurnInput) : Option (Message × Message) :=
  match ti.line with
  | none => none
  | some raw =>
    let input := trimGo raw
    if input = "/exit" then none
    else
      match ti.http with
      | .sendErr _ => none
      | .response status body =>
        if status ≠ 200 then none
        else
          match ti.decode body with
          | none => none
          | some chatResp =>
            match chatResp.choices with
            | [] => none
            | c :: _ => some (userMessageOf input, c.message)

/-- The two transcript entries contributed by one successful turn. -/
def turnEntries (ti : TurnInput) : List Message :=
  match turnMsgs ti with
  | none => []
  | some (u, a) => [u, a]

/-! ## Chat options setup (src/pkg/client/mlx_lm.go:64-113)

Each prompt's raw input is summarised by its parse outcome: `empty` (blank
line after trimming), `malformed` (`strconv` parse error), or a parsed
value. The branch structure below mirrors `setChatOptions` exactly. -/

inductive ParseOutcome (α : Type) where
  | empty
  | malformed
  | value (v : α)
deriving DecidableEq

/-- Embeds the temperature branch of `MlxLMClient.setChatOptions`: an empty
input takes the default 0.7; a parse error or a parsed value failing the
guard `temp < 0 || temp > 2.0` is rejected in favour of the default 0.7;
otherwise the parsed value is stored. The guard uses IEEE comparisons:
`ParseFloat` parses `NaN` with a nil error, both comparisons are false on
NaN, and NaN is therefore stored. -/
def chosenTemperature : ParseOutcome GoFloat → GoFloat
  | .empty => .finite (7/10)
  | .malformed => .finite (7/10)
  | .value t =>
    if GoFloat.lt t (.finite 0) || GoFloat.lt (.finite 2) t then .finite (7/10)
    else t

/-- The bound the spec states for the stored temperature — a value in
[0.0, 2.0]: a finite value in that range. NaN and the infinities are
outside it. Stated from the spec's words, to be compared with what
`chosenTemperature` stores. -/
def specTempInRange : GoFloat → Bool
  | .finite q => decide (0 ≤ q ∧ q ≤ 2)
  | _ => false

/-- Embeds the max-tokens branch of `MlxLMClient.setChatOptions`: an empty
input takes the default 512; a parse error or a value below 1 is rejected in
favour of the default 512; otherwise the parsed value is kept. -/
def chosenMaxTokens : ParseOutcome ℤ → ℤ
  | .empty => 512
  | .malformed => 512
  | .value n => if n < 1 then 512 else n

/-- Embeds the streaming branch of `MlxLMClient.setChatOptions`: the raw
input is lower-cased and trimmed, and streaming is enabled exactly on
`y`/`yes`. -/
def chosenStream (raw : String) : Bool :=
  let s := trimGo (toLowerGo raw)
  s = "y" || s = "yes"

/-- Embeds `MlxLMClient.setChatOptions` as a whole: the chat options
resulting from the three prompts. -/
def setChatOptions (ti : ParseOutcome GoFloat) (mi : ParseOutcome ℤ)
    (si : String) : ChatOptions :=
  { temperature := chosenTemperature ti,
    maxTokens := chosenMaxTokens mi,
    stream := chosenStream si }

/-! ## Server manager model (src/pkg/server)

The OS process table is modelled as a list of processes; `pgrep python`
returns those whose name matches `python`, and `ps -p <pid> -o command=`
returns the stored command line (the snapshot is taken as consistent:
the vanished-process `continue` branch of `IsRunning` never fires). -/

structure Proc where
  pid : Nat
  name : String
  cmdline : String
deriving DecidableEq

/-- The processes `pgrep python` reports. -/
def pgrepPython (os : List Proc) : List Proc :=
  os.filter (fun p => containsGo p.name "python")

/-- Embeds `MlxLMServerManager.IsRunning` (src/pkg/server/manager.go:41-73):
scan the `pgrep python` listing in order and return the first process whose
command line contains `mlx_lm.server`, as `(true, pid)`; otherwise
`(false, -1)`. -/
def isRunningGo (os : List Proc) : Bool × Int :=
  match (pgrepPython os).find? (fun p => containsGo p.cmdline "mlx_lm.server") with
  | some p => (true, (p.pid : Int))
  | none => (false, -1)

/-- Outcome of one `Stop` call: the Go error result, the process table and
recorded port afterwards, and the pid a `kill -9` was issued to (`none` when
no signal was sent at all). -/
structure StopOutcome where
  res : Except String Unit
  procs : List Proc
  port : Nat
  signaledPid : Option Int

/-- Embeds `MlxLMServerManager.Stop` (src/pkg/server/manager.go:135-148):
if `IsRunning` reports false the call fails with
`mlx_lm.server is not running` and no signal is sent; otherwise `kill -9` is
issued to the discovered pid (`killOk` is the oracle for the kill command's
exit status; on success the process leaves the table) and the recorded port
is reset to 0 only after a successful kill. -/
def stopGo (os : List Proc) (port : Nat) (killOk : Bool) : StopOutcome :=
  match isRunningGo os with
  | (false, _) =>
    { res := .error "mlx_lm.server is not running", procs := os,
      port := port, signaledPid := none }
  | (true, pid) =>
    if killOk then
      { res := .ok (), procs := os.filter (fun p => ((p.pid : Int) != pid)),
        port := 0, signaledPid := some pid }
    else
      { res := .error "failed to kill process", procs := os,
        port := port, signaledPid := some pid }

/-- The model path `Start` builds: `path.Join(homeDir, "/golms", "mlx_lm", llm)`. -/
def modelPathOf (home llm : String) : String :=
  home ++ "/golms/mlx_lm/" ++ llm

/-- Oracle data for one `Start` call. `available` records what
`IsAvailable()` would report for this handle; `Start` itself never reads it.
`fsExists` is the `os.Stat`/`os.IsNotExist` view of the filesystem;
`createLogOk` and `cmdStartOk` are the outcomes of `os.Create` on the log
file and of `cmd.Start()`; `healthyAt i` tells whether at the i-th
one-second poll `IsRunning()` succeeded and `lsof` showed the process's
listening socket. -/
structure StartEnv where
  available : Bool
  homeDir : Option String
  fsExists : String → Bool
  createLogOk : Bool
  cmdStartOk : Bool
  healthyAt : Nat → Bool

/-- Outcome of one `Start` call: the Go error result, the recorded port
afterwards, whether a child process was spawned (`cmd.Start()` was reached
and succeeded), whether `Stop` was invoked on any path, and whether the
30-poll wait loop observed the server listening (its only effect is which
message is printed). -/
structure StartOutcome where
  res : Except String Unit
  port : Nat
  spawned : Bool
  stopCalled : Bool
  listeningConfirmed : Bool

/-- Embeds `MlxLMServerManager.Start` (src/pkg/server/manager.go:75-133) for
a handle whose recorded port is `port0`. The branch structure follows the
source: resolve the home directory, fail if the model path does not exist,
create the log file, set the port to 8080, spawn `mlx_lm.server`, then poll
up to 30 times at 1 s for the server to be running with a listening socket.
The loop returns nil on the first healthy poll; when all 30 polls fail the
function prints a warning and still returns nil — it neither calls `Stop`
nor returns an error on any reachable path after a successful spawn. -/
def startGo (env : StartEnv) (llm : String) (port0 : Nat) : StartOutcome :=
  match env.homeDir with
  | none =>
    { res := .error "failed to get user home directory", port := port0,
      spawned := false, stopCalled := false, listeningConfirmed := false }
  | some home =>
    if env.fsExists (modelPathOf home llm) = false then
      { res := .error ("model path does not exist: " ++ modelPathOf home llm),
        port := port0, spawned := false, stopCalled := false,
        listeningConfirmed := false }
    else if env.createLogOk = false then
      { res := .error "failed to create log file", port := port0,
        spawned := false, stopCalled := false, listeningConfirmed := false }
    else if env.cmdStartOk = false then
      { res := .error "failed to start mlx_lm.server", port := 8080,
        spawned := false, stopCalled := false, listeningConfirmed := false }
    else
      { res := .ok (), port := 8080, spawned := true, stopCalled := false,
        listeningConfirmed := (List.range 30).any env.healthyAt }

/-- Embeds `MlxLMServerManager` handle state: selected model and recorded
port (src/pkg/server/manager.go and the `NewServerManager` constructor). -/
structure MlxLMServerManager where
  llm : String
  port : Nat
deriving DecidableEq

/-- The `AvailableModelServers` constant
(src/pkg/constants/model_server.go). -/
def availableModelServers : List String := ["ollama", "mlx_lm"]

/-- Embeds `NewServerManager` (src/pkg/server/manager.go:13-20): only the
`mlx_lm` case constructs a manager (llm as selected, port 0); every other
model server string, `ollama` included, falls to the `default` branch and
returns nil. `none` models the nil interface value. -/
def newServerManager (modelServer llm : String) : Option MlxLMServerManager :=
  if modelServer = "mlx_lm" then some { llm := llm, port := 0 } else none

inductive GoPanic where
  | nilInterfaceCall
deriving DecidableEq

/-- Embeds the availability check of `connectHandler`
(src/cmd/root.go:196-199): the value returned by `NewServerManager` flows
into `modelServerManager.IsAvailable()` with no nil check in between; in Go,
invoking an interface method on a nil interface value panics at runtime,
which the model surfaces as `GoPanic.nilInterfaceCall`. `isAvail` is the
oracle for what `IsAvailable()` reports on a non-nil manager. -/
def connectAvailabilityStep (modelServer llm : String)
    (isAvail : MlxLMServerManager → Bool) : Except GoPanic Bool :=
  match newServerManager modelServer llm with
  | none => .error .nilInterfaceCall
  | some m => .ok (isAvail m)

/-- Modelled from the spec: the definitions of `getPortHelper` and
`BaseModelServerManager` are referenced by src/pkg/server/manager.go but
their source is not under src/. Per sections 4.2 and 4.3 of the spec,
`GetPort` fails with not-running when the backend is not running; otherwise,
when the handle recorded a port at launch (`recorded ≠ 0`) that port is
returned directly as authoritative; only otherwise are the process's
listening sockets resolved via OS facilities (`osSockets`, `none` when the
process holds no listening socket or the tooling fails). The `Bool` in the
result records whether OS socket inspection was performed. -/
def getPortHelper (running : Bool) (recorded : Nat) (osSockets : Option Nat) :
    Except String Nat × Bool :=
  if running = false then (.error "not running", false)
  else if recorded != 0 then (.ok recorded, false)
  else
    match osSockets with
    | some p => (.ok p, true)
    | none => (.error "port resolution failed", true)

/-- A chat iteration's request fails without touching the message list when
the HTTP send fails, the response status is not 200, or the body does not
decode — exactly the error branches of `sendChatReq` that precede the append
of the assistant message. -/
def requestFails (ti : TurnInput) : Bool :=
  match ti.http with
  | .sendErr _ => true
  | .response status body =>
    if status ≠ 200 then true
    else
      match ti.decode body with
      | none => true
      | some _ => false

/-- The signature `IsRunning` scans for: a `pgrep python` hit whose command
line contains `mlx_lm.server`. -/
def mlxProcMatch (p : Proc) : Bool :=
  containsGo p.name "python" && containsGo p.cmdline "mlx_lm.server"

/-! ## Concrete fixtures used by witnesses and counterexamples -/

def sampleAssistantMsg : Message :=
  { role := "assistant", content := "Hello!", toolCalls := none }

def sampleResponse : ChatResponse :=
  { id := "chatcmpl-1", systemFingerprint := "fp", object := "chat.completion",
    model := "qwen", created := 0,
    choices := [{ index := 0, finishReason := "stop",
                  logprobs := { tokenLogProbs := [], topLogProbs := [], tokens := [] },
                  message := sampleAssistantMsg }],
    usage := { promptTokens := 1, completionTokens := 1, totalTokens := 2 } }

def sampleDecode : String → Option ChatResponse := fun _ => some sampleResponse

def sampleTurn (s : String) : TurnInput :=
  { line := some s, http := .response 200 "body", decode := sampleDecode }

def failTurn500 : TurnInput :=
  { line := some "hi again", http := .response 500 "overloaded",
    decode := sampleDecode }

def exitTurn : TurnInput :=
  { line := some "/exit", http := .sendErr "transport untouched",
    decode := fun _ => none }

def sampleOpts : ChatOptions :=
  { temperature := .finite (7/10), maxTokens := 512, stream := false }

def sampleReq : ChatRequest :=
  { messages := [], temperature := .finite (7/10), maxTokens := 512,
    stream := false }

def sampleProc : Proc :=
  { pid := 42, name := "python3",
    cmdline := "python3 /usr/bin/mlx_lm.server --model m" }

def otherProc : Proc :=
  { pid := 7, name := "bash", cmdline := "bash" }

def c1Env : StartEnv :=
  { available := true, homeDir := some "/Users/u", fsExists := fun _ => true,
    createLogOk := true, cmdStartOk := true, healthyAt := fun _ => false }

def c2Env : StartEnv :=
  { available := false, homeDir := some "/Users/u", fsExists := fun _ => true,
    createLogOk := true, cmdStartOk := true, healthyAt := fun _ => true }

def c2PathEnv : StartEnv :=
  { available := true, homeDir := some "/Users/u", fsExists := fun _ => false,
    createLogOk := true, cmdStartOk := true, healthyAt := fun _ => true }

def failTurnDecode : TurnInput :=
  { line := some "again", http := .response 200 "garbage",
    decode := fun _ => none }

/-! ## Lemmas about the chat loop -/

/-- A successful turn's first appended entry is the user message built from
the trimmed input line. -/
theorem turnMsgs_user (ti : TurnInput) (u a : Message)
    (h : turnMsgs ti = some (u, a)) :
    ∃ raw, ti.line = some raw ∧ u = userMessageOf (trimGo raw) := by
  cases hline : ti.line with
  | none => simp [turnMsgs, hline] at h
  | some raw =>
    refine ⟨raw, rfl, ?_⟩
    by_cases hexit : trimGo raw = "/exit"
    · simp [turnMsgs, hline, hexit] at h
    · cases hhttp : ti.http with
      | sendErr m => simp [turnMsgs, hline, hexit, hhttp] at h
      | response status body =>
        by_cases hst : status = 200
        · cases hdec : ti.decode body with
          | none => simp [turnMsgs, hline, hexit, hhttp, hst, hdec] at h
          | some cr =>
            cases hch : cr.choices with
            | nil => simp [turnMsgs, hline, hexit, hhttp, hst, hdec, hch] at h
            | cons c cs =>
              simp [turnMsgs, hline, hexit, hhttp, hst, hdec, hch] at h
              exact h.1.symm
        · simp [turnMsgs, hline, hexit, hhttp, hst] at h

/-- One successful iteration of the chat loop appends exactly the turn's two
messages and continues with the rest of the inputs. -/
theorem chatLoop_cons_success (req : ChatRequest) (ti : TurnInput)
    (rest : List TurnInput) (u a : Message) (h : turnMsgs ti = some (u, a)) :
    chatLoop req (ti :: rest) =
      chatLoop { req with messages := req.messages ++ [u, a] } rest := by
  cases hline : ti.line with
  | none => simp [turnMsgs, hline] at h
  | some raw =>
    by_cases hexit : trimGo raw = "/exit"
    · simp [turnMsgs, hline, hexit] at h
    · cases hhttp : ti.http with
      | sendErr m => simp [turnMsgs, hline, hexit, hhttp] at h
      | response status body =>
        by_cases hst : status = 200
        · cases hdec : ti.decode body with
          | none => simp [turnMsgs, hline, hexit, hhttp, hst, hdec] at h
          | some cr =>
            cases hch : cr.choices with
            | nil => simp [turnMsgs, hline, hexit, hhttp, hst, hdec, hch] at h
            | cons c cs =>
              have huv : u = userMessageOf (trimGo raw) ∧ a = c.message := by
                simp [turnMsgs, hline, hexit, hhttp, hst, hdec, hch] at h
                exact ⟨h.1.symm, h.2.symm⟩
              obtain ⟨hu, ha⟩ := huv
              subst hu
              subst ha
              simp [chatLoop, hline, hexit, sendChatReq, hhttp, hst, hdec, hch]
        · simp [turnMsgs, hline, hexit, hhttp, hst] at h

/-- Running the chat loop through a list of successful turns appends each
turn's two entries in order, then continues with the remaining inputs. -/
theorem chatLoop_append_success (pre : List TurnInput) :
    ∀ (req : ChatRequest) (suffix : List TurnInput),
    (∀ ti ∈ pre, (turnMsgs ti).isSome = true) →
    chatLoop req (pre ++ suffix) =
      chatLoop { req with messages := req.messages ++ pre.flatMap turnEntries }
        suffix := by
  induction pre with
  | nil =>
    intro req suffix h
    simp
  | cons ti rest ih =>
    intro req suffix h
    have hti : (turnMsgs ti).isSome = true := h ti (by simp)
    obtain ⟨⟨u, a⟩, hua⟩ := Option.isSome_iff_exists.mp hti
    have hstep := chatLoop_cons_success req ti (rest ++ suffix) u a hua
    have hrest : ∀ t ∈ rest, (turnMsgs t).isSome = true := by
      intro t ht
      exact h t (by simp [ht])
    calc chatLoop req (ti :: rest ++ suffix)
        = chatLoop { req with messages := req.messages ++ [u, a] }
            (rest ++ suffix) := hstep
      _ = chatLoop { req with messages :=
              (req.messages ++ [u, a]) ++ rest.flatMap turnEntries } suffix := by
            exact ih { req with messages := req.messages ++ [u, a] } suffix hrest
      _ = chatLoop { req with messages :=
              req.messages ++ (ti :: rest).flatMap turnEntries } suffix := by
            simp [turnEntries, hua]

/-- Running the chat loop through successful turns only, ending with the
inputs exhausted. -/
theorem chatLoop_all_success (inputs : List TurnInput) (req : ChatRequest)
    (h : ∀ ti ∈ inputs, (turnMsgs ti).isSome = true) :
    chatLoop req inputs = .pending (req.messages ++ inputs.flatMap turnEntries) := by
  have := chatLoop_append_success inputs req [] h
  simpa [chatLoop] using this

/-- Whenever `requestFails` holds, `sendChatReq` returns an error — for every
request, since the failing branches precede any use of the request. -/
theorem sendChatReq_fails (req : ChatRequest) (ti : TurnInput)
    (hfail : requestFails ti = true) :
    ∃ e, sendChatReq req ti.http ti.decode = .error e := by
  cases hhttp : ti.http with
  | sendErr m => exact ⟨.transport m, by simp [sendChatReq, hhttp]⟩
  | response status body =>
    by_cases hst : status = 200
    · cases hdec : ti.decode body with
      | none => exact ⟨.decodeFailure body, by simp [sendChatReq, hhttp, hst, hdec]⟩
      | some cr => simp [requestFails, hhttp, hst, hdec] at hfail
    · exact ⟨.apiError status body, by simp [sendChatReq, hhttp, hst]⟩

/-- A chat iteration whose request fails terminates the loop with that error
and with the transcript extended by the user message alone. -/
theorem chatLoop_cons_fail (req : ChatRequest) (ti : TurnInput)
    (rest : List TurnInput) (raw : String) (e : ChatError)
    (hline : ti.line = some raw) (hexit : trimGo raw ≠ "/exit")
    (he : sendChatReq
        { req with messages := req.messages ++ [userMessageOf (trimGo raw)] }
        ti.http ti.decode = .error e) :
    chatLoop req (ti :: rest) =
      .failed e (req.messages ++ [userMessageOf (trimGo raw)]) := by
  simp [chatLoop, hline, hexit, he]

/-- Each successful turn contributes exactly two transcript entries. -/
theorem flatMap_turnEntries_length (inputs : List TurnInput)
    (h : ∀ ti ∈ inputs, (turnMsgs ti).isSome = true) :
    (inputs.flatMap turnEntries).length = 2 * inputs.length := by
  induction inputs with
  | nil => simp
  | cons ti rest ih =>
    have hti : (turnMsgs ti).isSome = true := h ti (by simp)
    obtain ⟨⟨u, a⟩, hua⟩ := Option.isSome_iff_exists.mp hti
    have hrest : ∀ t ∈ rest, (turnMsgs t).isSome = true := by
      intro t ht
      exact h t (by simp [ht])
    simp [turnEntries, hua, ih hrest]
    ring

/-- The roles contributed by successful turns whose assistant message has
role `assistant` strictly alternate: user, assistant, user, assistant, … -/
theorem flatMap_turnEntries_roles (inputs : List TurnInput)
    (h : ∀ ti ∈ inputs, ∃ u a, turnMsgs ti = some (u, a) ∧ a.role = "assistant") :
    (inputs.flatMap turnEntries).map Message.role =
      (List.replicate inputs.length ["user", "assistant"]).flatten := by
  induction inputs with
  | nil => simp
  | cons ti rest ih =>
    obtain ⟨u, a, hua, hrole⟩ := h ti (by simp)
    obtain ⟨raw, _, hu⟩ := turnMsgs_user ti u a hua
    have hrest : ∀ t ∈ rest, ∃ u a, turnMsgs t = some (u, a) ∧ a.role = "assistant" := by
      intro t ht
      exact h t (by simp [ht])
    simp [turnEntries, hua, hu, userMessageOf, hrole, ih hrest,
      List.replicate_succ]

/-- The first list element satisfying a conjunction of tests, computed by
filtering on the first test and searching the second. -/
theorem find?_filter_eq (l : List Proc) (f g : Proc → Bool) :
    (l.filter f).find? g = l.find? (fun p => f p && g p) := by
  induction l with
  | nil => simp
  | cons x xs ih =>
    by_cases hf : f x
    · by_cases hg : g x <;> simp [List.filter_cons, List.find?_cons, hf, hg, ih]
    · simp [List.filter_cons, List.find?_cons, hf, ih]

/-- Search is the head of the filtered list. -/
theorem find?_eq_head_filter (l : List Proc) (f : Proc → Bool) :
    l.find? f = (l.filter f).head? := by
  induction l with
  | nil => simp
  | cons x xs ih =>
    by_cases hf : f x
    · simp [List.filter_cons, List.find?_cons, hf]
    · have hf' : f x = false := by simpa using hf
      rw [List.find?_cons_of_neg _ (by simp [hf']),
        List.filter_cons_of_neg (by simp [hf'])]
      exact ih

/-- `IsRunning` in terms of the combined process signature. -/
theorem isRunningGo_eq (os : List Proc) :
    isRunningGo os =
      match (os.filter mlxProcMatch).head? with
      | some p => (true, (p.pid : Int))
      | none => (false, -1) := by
  unfold isRunningGo pgrepPython
  rw [find?_filter_eq, find?_eq_head_filter]
  rfl

/-! ## Claim theorems: chat session driver -/

/-- Claim C3: after N successful chat turns the message list contains
exactly 2N entries alternating user then assistant in insertion order, and
no previously appended entry is ever mutated or reordered by a later
operation — the transcript after any earlier number of turns is a prefix of
the final one. A successful turn is one whose line was read and is not
`/exit`, whose request returned status 200, and whose body decoded with a
first choice; the backend reply is required to carry role `assistant`, as
the wire protocol prescribes. -/
theorem chat_transcript_invariant (opts : ChatOptions) (inputs : List TurnInput)
    (h : ∀ ti ∈ inputs, ∃ u a, turnMsgs ti = some (u, a) ∧ a.role = "assistant") :
    ∃ T, startChat opts inputs = .pending T ∧
      T.length = 2 * inputs.length ∧
      T.map Message.role =
        (List.replicate inputs.length ["user", "assistant"]).flatten ∧
      ∀ k, ∃ Tk tail,
        startChat opts (inputs.take k) = .pending Tk ∧ T = Tk ++ tail := by
  have hsome : ∀ ti ∈ inputs, (turnMsgs ti).isSome = true := by
    intro ti hti
    obtain ⟨u, a, hua, _⟩ := h ti hti
    simp [hua]
  refine ⟨inputs.flatMap turnEntries, ?_, ?_, ?_, ?_⟩
  · have := chatLoop_all_success inputs
      { messages := [], temperature := opts.temperature,
        maxTokens := opts.maxTokens, stream := opts.stream } hsome
    simpa [startChat] using this
  · exact flatMap_turnEntries_length inputs hsome
  · exact flatMap_turnEntries_roles inputs h
  · intro k
    refine ⟨(inputs.take k).flatMap turnEntries,
      (inputs.drop k).flatMap turnEntries, ?_, ?_⟩
    · have hsome' : ∀ ti ∈ inputs.take k, (turnMsgs ti).isSome = true := by
        intro ti hti
        exact hsome ti (List.mem_of_mem_take hti)
      have := chatLoop_all_success (inputs.take k)
        { messages := [], temperature := opts.temperature,
          maxTokens := opts.maxTokens, stream := opts.stream } hsome'
      simpa [startChat] using this
    · conv_lhs => rw [← List.take_append_drop k inputs]
      rw [List.flatMap_append]

/-- Witness: a concrete two-turn session satisfying the transcript
invariant, its transcript computed in full. -/
theorem chat_transcript_invariant_witness :
    startChat sampleOpts [sampleTurn "hi", sampleTurn "how are you"] =
      .pending [userMessageOf "hi", sampleAssistantMsg,
        userMessageOf "how are you", sampleAssistantMsg] := by
  have h := chat_transcript_invariant sampleOpts
    [sampleTurn "hi", sampleTurn "how are you"] (by
      intro ti hti
      simp only [List.mem_cons, List.not_mem_nil, or_false] at hti
      rcases hti with h1 | h2
      · exact ⟨userMessageOf "hi", sampleAssistantMsg, by rw [h1]; decide, rfl⟩
      · exact ⟨userMessageOf "how are you", sampleAssistantMsg,
          by rw [h2]; decide, rfl⟩)
  decide

/-- Claim C4: a chat request whose HTTP response has a non-200 status makes
`sendChatReq` return the API error carrying that status code and body,
appends no assistant turn (the transcript is the prior one plus the user
turn alone), and the chat loop terminates at once surfacing that error:
the remaining inputs `rest` are never consumed, so no retry occurs. -/
theorem chat_non200_surfaces_error (req : ChatRequest) (ti : TurnInput)
    (rest : List TurnInput) (raw : String) (status : Nat) (body : String)
    (hline : ti.line = some raw) (hexit : trimGo raw ≠ "/exit")
    (hhttp : ti.http = .response status body) (hst : status ≠ 200) :
    sendChatReq
        { req with messages := req.messages ++ [userMessageOf (trimGo raw)] }
        ti.http ti.decode = .error (.apiError status body) ∧
    chatLoop req (ti :: rest) =
      .failed (.apiError status body)
        (req.messages ++ [userMessageOf (trimGo raw)]) := by
  have hsend : sendChatReq
      { req with messages := req.messages ++ [userMessageOf (trimGo raw)] }
      ti.http ti.decode = .error (.apiError status body) := by
    simp [sendChatReq, hhttp, hst]
  exact ⟨hsend, chatLoop_cons_fail req ti rest raw _ hline hexit hsend⟩

/-- Witness: the spec scenario — HTTP 500 with body `overloaded` surfaces
the error carrying 500 and `overloaded` and leaves no assistant turn. -/
theorem chat_non200_surfaces_error_witness :
    sendChatReq
        { sampleReq with
          messages := sampleReq.messages ++ [userMessageOf (trimGo "hi again")] }
        failTurn500.http failTurn500.decode = .error (.apiError 500 "overloaded") ∧
    chatLoop sampleReq [failTurn500] =
      .failed (.apiError 500 "overloaded")
        (sampleReq.messages ++ [userMessageOf (trimGo "hi again")]) :=
  chat_non200_surfaces_error sampleReq failTurn500 [] "hi again" 500 "overloaded"
    rfl (by decide) rfl (by decide)

/-- Claim C7: entering `/exit` (as trimmed by `addUserMessage`) ends the
chat loop with the successful `nil` return, leaves the message list exactly
as it was, and issues no transport call for that input — the result is the
same for every `http`/`decode` oracle of that turn and the remaining inputs
are never consumed. -/
theorem chat_exit_token (req : ChatRequest) (ti : TurnInput)
    (rest : List TurnInput) (raw : String)
    (hline : ti.line = some raw) (hexit : trimGo raw = "/exit") :
    chatLoop req (ti :: rest) = .exited req.messages := by
  simp [chatLoop, hline, hexit]

/-- Witness: a concrete session whose only input is `/exit`, with a
transport oracle that would fail if consulted. -/
theorem chat_exit_token_witness :
    chatLoop sampleReq [exitTurn] = .exited sampleReq.messages :=
  chat_exit_token sampleReq exitTurn [] "/exit" rfl (by decide)

/-- Claim C10: when the request of an iteration fails (transport error,
non-200 status, or decode failure — `requestFails`), the user turn appended
at the start of that iteration remains in the message list: the session
ends with a transcript of odd length whose last entry is that user turn,
with no matching assistant entry and no rollback. -/
theorem chat_failed_turn_not_rolled_back (opts : ChatOptions)
    (pre : List TurnInput) (ti : TurnInput) (rest : List TurnInput) (raw : String)
    (hpre : ∀ t ∈ pre, (turnMsgs t).isSome = true)
    (hline : ti.line = some raw) (hexit : trimGo raw ≠ "/exit")
    (hfail : requestFails ti = true) :
    ∃ e T, startChat opts (pre ++ ti :: rest) = .failed e T ∧
      T = pre.flatMap turnEntries ++ [userMessageOf (trimGo raw)] ∧
      T.getLast? = some (userMessageOf (trimGo raw)) ∧
      (userMessageOf (trimGo raw)).role = "user" ∧
      T.length = 2 * pre.length + 1 := by
  have hpre' := chatLoop_append_success pre
    { messages := [], temperature := opts.temperature,
      maxTokens := opts.maxTokens, stream := opts.stream } (ti :: rest) hpre
  obtain ⟨e, he⟩ := sendChatReq_fails
    { messages := ([] : List Message) ++ pre.flatMap turnEntries ++
        [userMessageOf (trimGo raw)],
      temperature := opts.temperature, maxTokens := opts.maxTokens,
      stream := opts.stream } ti hfail
  have hstep := chatLoop_cons_fail
    { messages := ([] : List Message) ++ pre.flatMap turnEntries,
      temperature := opts.temperature, maxTokens := opts.maxTokens,
      stream := opts.stream } ti rest raw e hline hexit he
  have hlen := flatMap_turnEntries_length pre hpre
  refine ⟨e, ([] : List Message) ++ pre.flatMap turnEntries ++
    [userMessageOf (trimGo raw)], ?_, by simp, by simp, rfl, by simp [hlen]⟩
  calc startChat opts (pre ++ ti :: rest)
      = chatLoop
          { messages := ([] : List Message) ++ pre.flatMap turnEntries,
            temperature := opts.temperature, maxTokens := opts.maxTokens,
            stream := opts.stream } (ti :: rest) := hpre'
    _ = .failed e (([] : List Message) ++ pre.flatMap turnEntries ++
          [userMessageOf (trimGo raw)]) := hstep

/-- Witness: one successful turn followed by a decode failure leaves a
three-entry transcript ending in the unmatched user turn. -/
theorem chat_failed_turn_not_rolled_back_witness :
    startChat sampleOpts ([sampleTurn "hi"] ++ failTurnDecode :: []) =
      .failed (.decodeFailure "garbage")
        [userMessageOf "hi", sampleAssistantMsg, userMessageOf "again"] := by
  have h := chat_failed_turn_not_rolled_back sampleOpts [sampleTurn "hi"]
    failTurnDecode [] "again" (by
      intro t ht
      simp only [List.mem_cons, List.not_mem_nil, or_false] at ht
      rw [ht]
      decide) rfl (by decide) rfl
  decide

/-! ## Claim theorems: chat options -/

/-- Claim C8 names the intended behaviour and the code has a slip at the
temperature input `NaN`: Go parses it successfully (`strconv.ParseFloat`
returns NaN with a nil error), both guard comparisons `temp < 0` and
`temp > 2.0` are false on NaN, so `setChatOptions` stores temperature NaN —
outside the range [0.0, 2.0] that the claim states and that the code's own
prompt `(0.0-2.0, default 0.7)` documents. This theorem evaluates the
embedded code at that failing input: the stored temperature is NaN, not the
default, and fails the spec's bound. -/
theorem chat_options_nan_escape :
    GoFloat.lt .nan (.finite 0) = false ∧
    GoFloat.lt (.finite 2) .nan = false ∧
    chosenTemperature (.value .nan) = .nan ∧
    (setChatOptions (.value .nan) .empty "n").temperature = .nan ∧
    specTempInRange (setChatOptions (.value .nan) .empty "n").temperature =
      false := by
  decide

/-! ## Claim theorems: server manager -/

/-- Claim C9: for every model server string other than `mlx_lm` — `ollama`,
which the constants list as an available server, included — NewServerManager
returns nil, and the connect flow's next step invokes IsAvailable() on that
nil interface value with no nil check in between, a runtime panic in Go. -/
theorem connect_nil_manager (s llm : String)
    (isAvail : MlxLMServerManager → Bool) (h : s ≠ "mlx_lm") :
    newServerManager s llm = none ∧
    connectAvailabilityStep s llm isAvail = .error .nilInterfaceCall ∧
    "ollama" ∈ availableModelServers ∧ ("ollama" : String) ≠ "mlx_lm" := by
  refine ⟨?_, ?_, by simp [availableModelServers], by decide⟩
  · simp [newServerManager, h]
  · simp [connectAvailabilityStep, newServerManager, h]

/-- Witness: selecting `ollama` yields a nil manager and the connect flow's
availability check panics. -/
theorem connect_nil_manager_witness :
    newServerManager "ollama" "qwen" = none ∧
    connectAvailabilityStep "ollama" "qwen" (fun _ => true) =
      .error .nilInterfaceCall ∧
    "ollama" ∈ availableModelServers ∧ ("ollama" : String) ≠ "mlx_lm" :=
  connect_nil_manager "ollama" "qwen" (fun _ => true) (by decide)

/-- Claim C6 (`getPortHelper` is modelled from the spec, its source being
absent from src/): a running handle whose port was recorded at launch gets
that recorded port back directly and the OS socket inspection flag stays
false, whatever the socket oracle holds; and every `Start` that spawns
records port 8080 on the handle. -/
theorem recorded_port_authoritative (recorded : Nat) (osSockets : Option Nat)
    (hrec : recorded ≠ 0) :
    getPortHelper true recorded osSockets = (.ok recorded, false) ∧
    ∀ (env : StartEnv) (llm : String) (p0 : Nat),
      (startGo env llm p0).spawned = true → (startGo env llm p0).port = 8080 := by
  constructor
  · simp [getPortHelper, hrec]
  · intro env llm p0 hsp
    cases hh : env.homeDir with
    | none => simp [startGo, hh] at hsp
    | some home =>
      by_cases hfs : env.fsExists (modelPathOf home llm) = false
      · simp [startGo, hh, hfs] at hsp
      · by_cases hlog : env.createLogOk = false
        · simp [startGo, hh, hfs, hlog] at hsp
        · by_cases hcmd : env.cmdStartOk = false
          · simp [startGo, hh, hfs, hlog, hcmd] at hsp
          · simp [startGo, hh, hfs, hlog, hcmd]

def c6Env : StartEnv :=
  { available := true, homeDir := some "/Users/u", fsExists := fun _ => true,
    createLogOk := true, cmdStartOk := true, healthyAt := fun _ => true }

/-- Witness: a port recorded as 8080 is returned with no OS socket
inspection even when the socket oracle would report 9999, and a concrete
successful Start records 8080. -/
theorem recorded_port_authoritative_witness :
    getPortHelper true 8080 (some 9999) = (.ok 8080, false) ∧
    (startGo c6Env "qwen" 0).port = 8080 :=
  ⟨(recorded_port_authoritative 8080 (some 9999) (by decide)).1,
    (recorded_port_authoritative 8080 (some 9999) (by decide)).2
      c6Env "qwen" 0 (by decide)⟩

/-- Stop on a handle whose IsRunning reports false fails with the
not-running error and has no side effect: no signal sent, process table and
recorded port unchanged. -/
theorem stopGo_not_running (os : List Proc) (port : Nat) (killOk : Bool)
    (h : (isRunningGo os).1 = false) :
    stopGo os port killOk =
      { res := .error "mlx_lm.server is not running", procs := os,
        port := port, signaledPid := none } := by
  have hr2 : isRunningGo os = (false, (isRunningGo os).2) := by
    rcases hr : isRunningGo os with ⟨b, pid⟩
    rw [hr] at h
    simp only at h
    simp [h]
  unfold stopGo
  rw [hr2]

/-- Claim C5: Stop on a not-running handle fails with the not-running error
and sends no termination signal; Stop on a running handle sends the
forceful kill to the discovered pid; and after a successful Stop of the
only process matching the mlx signature, a second Stop — with any port and
kill oracle — again fails with the not-running error and signals nothing,
rather than crashing. -/
theorem stop_idempotent_behaviour (os : List Proc) (port : Nat) (p : Proc)
    (huniq : os.filter mlxProcMatch = [p]) :
    (∀ (os0 : List Proc) (port0 : Nat) (killOk : Bool),
      (isRunningGo os0).1 = false →
      stopGo os0 port0 killOk =
        { res := .error "mlx_lm.server is not running", procs := os0,
          port := port0, signaledPid := none }) ∧
    (∀ (os1 : List Proc) (port1 : Nat) (pid : Int) (killOk : Bool),
      isRunningGo os1 = (true, pid) →
      (stopGo os1 port1 killOk).signaledPid = some pid) ∧
    stopGo os port true =
      { res := .ok (),
        procs := os.filter (fun q => ((q.pid : Int) != (p.pid : Int))),
        port := 0, signaledPid := some ((p.pid : Int)) } ∧
    ∀ (port2 : Nat) (killOk2 : Bool),
      stopGo (stopGo os port true).procs port2 killOk2 =
        { res := .error "mlx_lm.server is not running",
          procs := (stopGo os port true).procs, port := port2,
          signaledPid := none } := by
  have hrun : isRunningGo os = (true, (p.pid : Int)) := by
    rw [isRunningGo_eq, huniq]
    rfl
  have hstop1 : stopGo os port true =
      { res := .ok (),
        procs := os.filter (fun q => ((q.pid : Int) != (p.pid : Int))),
        port := 0, signaledPid := some ((p.pid : Int)) } := by
    unfold stopGo
    rw [hrun]
    rfl
  refine ⟨?_, ?_, hstop1, ?_⟩
  · intro os0 port0 killOk h0
    exact stopGo_not_running os0 port0 killOk h0
  · intro os1 port1 pid killOk h1
    unfold stopGo
    rw [h1]
    cases killOk <;> rfl
  · intro port2 killOk2
    have hnomatch :
        ((os.filter (fun q => ((q.pid : Int) != (p.pid : Int)))).filter
          mlxProcMatch) = [] := by
      rw [List.filter_eq_nil_iff]
      intro q hq hmq
      have hq1 : q ∈ os := (List.mem_filter.mp hq).1
      have hq2 : ((q.pid : Int) != (p.pid : Int)) = true :=
        (List.mem_filter.mp hq).2
      have hqp : q ∈ os.filter mlxProcMatch := List.mem_filter.mpr ⟨hq1, hmq⟩
      rw [huniq] at hqp
      simp only [List.mem_cons, List.not_mem_nil, or_false] at hqp
      subst hqp
      simp at hq2
    have hnorun :
        (isRunningGo (os.filter (fun q => ((q.pid : Int) != (p.pid : Int))))).1 =
          false := by
      rw [isRunningGo_eq, hnomatch]
      rfl
    rw [hstop1]
    exact stopGo_not_running _ port2 killOk2 hnorun

/-- Witness: a process table holding one bash process and one
mlx_lm.server python process. Stop kills pid 42; the second Stop finds
nothing running, fails with the not-running error and signals nothing. -/
theorem stop_idempotent_behaviour_witness :
    stopGo [otherProc, sampleProc] 8080 true =
      { res := .ok (),
        procs := [otherProc, sampleProc].filter
          (fun q => ((q.pid : Int) != ((sampleProc.pid : Int)))),
        port := 0, signaledPid := some ((sampleProc.pid : Int)) } ∧
    stopGo (stopGo [otherProc, sampleProc] 8080 true).procs 0 true =
      { res := .error "mlx_lm.server is not running",
        procs := (stopGo [otherProc, sampleProc] 8080 true).procs, port := 0,
        signaledPid := none } := by
  have h := stop_idempotent_behaviour [otherProc, sampleProc] 8080 sampleProc
    (by decide)
  exact ⟨h.2.2.1, h.2.2.2 0 true⟩

/-- Claim C1 as stated is false on the code: at a concrete Start invocation
whose 30 health polls all fail, Start returns nil (success), not a timeout
error, and never attempts Stop. -/
theorem start_timeout_counterexample :
    (startGo c1Env "qwen" 0).listeningConfirmed = false ∧
    (startGo c1Env "qwen" 0).res = .ok () ∧
    (startGo c1Env "qwen" 0).stopCalled = false := by
  refine ⟨?_, ?_, ?_⟩ <;> simp [startGo, c1Env]

/-- Claim C1 amended: when the health-wait loop exhausts its 30 one-second
polls without the backend becoming reachable, Start does not attempt Stop
and does not return a timeout error — it returns nil (success) after
printing a warning, leaving the spawned process running. -/
theorem start_timeout_amended (env : StartEnv) (llm : String) (p0 : Nat)
    (home : String) (hh : env.homeDir = some home)
    (hfs : env.fsExists (modelPathOf home llm) = true)
    (hlog : env.createLogOk = true) (hcmd : env.cmdStartOk = true)
    (hpoll : ∀ i < 30, env.healthyAt i = false) :
    (startGo env llm p0).res = .ok () ∧
    (startGo env llm p0).stopCalled = false ∧
    (startGo env llm p0).spawned = true ∧
    (startGo env llm p0).listeningConfirmed = false := by
  have hany : (List.range 30).any env.healthyAt = false := by
    rw [List.any_eq_false]
    intro i hi
    simp [hpoll i (List.mem_range.mp hi)]
  refine ⟨?_, ?_, ?_, ?_⟩ <;> simp [startGo, hh, hfs, hlog, hcmd, hany]

/-- Witness: the amended behaviour at the concrete all-polls-fail
environment. -/
theorem start_timeout_amended_witness :
    (startGo c1Env "qwen" 0).res = .ok () ∧
    (startGo c1Env "qwen" 0).stopCalled = false ∧
    (startGo c1Env "qwen" 0).spawned = true ∧
    (startGo c1Env "qwen" 0).listeningConfirmed = false :=
  start_timeout_amended c1Env "qwen" 0 "/Users/u" rfl rfl rfl rfl
    (fun _ _ => rfl)

/-- Claim C2 as stated is false on the code: at a concrete handle whose
IsAvailable is false but whose model path exists, Start succeeds and spawns
the process — it neither fails with a NotInstalled error nor refrains from
spawning. -/
theorem start_no_availability_check_counterexample :
    c2Env.available = false ∧
    (startGo c2Env "qwen" 0).res = .ok () ∧
    (startGo c2Env "qwen" 0).spawned = true := by
  refine ⟨rfl, ?_, ?_⟩ <;> simp [startGo, c2Env]

/-- Claim C2 amended: Start performs no IsAvailable check — its outcome is
independent of the availability bit (the connect flow checks IsAvailable
before calling Start) — and Start does fail immediately, spawning no
process and attempting no Stop, when the configured model path does not
exist on disk. -/
theorem start_model_path_check_amended (env : StartEnv) (llm : String)
    (p0 : Nat) (home : String) (b : Bool) (hh : env.homeDir = some home)
    (hfs : env.fsExists (modelPathOf home llm) = false) :
    (startGo env llm p0).res =
      .error ("model path does not exist: " ++ modelPathOf home llm) ∧
    (startGo env llm p0).spawned = false ∧
    (startGo env llm p0).stopCalled = false ∧
    ∀ (env2 : StartEnv),
      startGo { env2 with available := b } llm p0 = startGo env2 llm p0 := by
  refine ⟨?_, ?_, ?_, fun env2 => rfl⟩ <;> simp [startGo, hh, hfs]

/-- Witness: the amended behaviour at a concrete missing-model-path
environment. -/
theorem start_model_path_check_amended_witness :
    (startGo c2PathEnv "qwen" 0).res =
      .error ("model path does not exist: " ++ modelPathOf "/Users/u" "qwen") ∧
    (startGo c2PathEnv "qwen" 0).spawned = false ∧
    (startGo c2PathEnv "qwen" 0).stopCalled = false :=
  ⟨(start_model_path_check_amended c2PathEnv "qwen" 0 "/Users/u" false rfl rfl).1,
    (start_model_path_check_amended c2PathEnv "qwen" 0 "/Users/u" false rfl rfl).2.1,
    (start_model_path_check_amended c2PathEnv "qwen" 0 "/Users/u" false rfl rfl).2.2.1⟩

end Golms
